import Mathlib

/-!
Verification of the flood-analysis service core (src/main.py) against its
specification.  The embedding models:

* `parse_gemini_response`  — the Response Normalizer (main.py lines 58-87),
* `generate_image_risk_assessment` — the Fallback Generator (lines 90-133),
* the retry/backoff loop of `analyze_image` (lines 194-221) as `retryLoop`,
* the request handler `analyze_image` (lines 146-233) including its
  validation checks and its outer catch-all exception handler.

External collaborators (the Gemini client, PIL image decoding, the random
source) are passed in as explicit parameters, as are the bytes-level facts
about the upload (declared content type, body length, decodability).
JSON documents are modelled by the inductive type `JVal`; `json_loads`
implements the standard JSON grammar (Python's non-standard extensions
NaN/Infinity are outside the modelled grammar; no claim depends on them).
Python dicts are modelled as association lists in insertion order; lookup
of a key is `tableGet` (keys are unique in every dict the program builds),
and `dict.get(k, default)` is `dGet`, which prefers the last binding the
way a Python dict built from duplicate JSON keys would.
-/

/-- A JSON value, as produced by Python's json.loads.  Numbers are idealized
as rationals (Python would produce int/float). -/
inductive JVal : Type
  | str : String → JVal
  | num : ℚ → JVal
  | bool : Bool → JVal
  | arr : List JVal → JVal
  | obj : List (String × JVal) → JVal
  | null : JVal

/-- Boolean test that one character list is a prefix of another. -/
def listPref : List Char → List Char → Bool
  | [], _ => true
  | _ :: _, [] => false
  | a :: as, b :: bs => if a = b then listPref as bs else false

/-- Substring containment on character lists; models Python's `in` on str. -/
def containsList (needle : List Char) : List Char → Bool
  | [] => listPref needle []
  | c :: cs => listPref needle (c :: cs) || containsList needle cs

/-- ASCII lowercasing; models str.lower() on the ASCII error texts involved. -/
def lowerList (cs : List Char) : List Char := cs.map Char.toLower

/-- JSON insignificant whitespace (space, tab, newline, carriage return). -/
def skipWs : List Char → List Char
  | [] => []
  | c :: cs =>
    if c = ' ' ∨ c = '\t' ∨ c = '\n' ∨ c = '\r' then skipWs cs else c :: cs

/-- Split a leading run of decimal digits from a character list. -/
def splitDigits : List Char → List Char × List Char
  | [] => ([], [])
  | c :: cs =>
    if c.isDigit then
      let p := splitDigits cs
      (c :: p.1, p.2)
    else ([], c :: cs)

/-- Numeric value of a digit run. -/
def digitsToNat (ds : List Char) : ℕ :=
  ds.foldl (fun n c => n * 10 + (c.toNat - 48)) 0

/-- Value of one hexadecimal digit, if any. -/
def hexVal (c : Char) : Option ℕ :=
  if c.isDigit then some (c.toNat - 48)
  else if 'a' ≤ c ∧ c ≤ 'f' then some (c.toNat - 87)
  else if 'A' ≤ c ∧ c ≤ 'F' then some (c.toNat - 55)
  else none

/-- Translation of a single-character JSON escape. -/
def escChar : Char → Option Char
  | '"' => some '"'
  | '\\' => some '\\'
  | '/' => some '/'
  | 'b' => some (Char.ofNat 8)
  | 'f' => some (Char.ofNat 12)
  | 'n' => some '\n'
  | 'r' => some '\r'
  | 't' => some '\t'
  | _ => none

/-- Parse the body of a JSON string after the opening quote, returning the
decoded characters and the remainder after the closing quote.  Unescaped
control characters are rejected, as by Python's strict mode. -/
def parseJStr : List Char → Option (List Char × List Char)
  | [] => none
  | '"' :: cs => some ([], cs)
  | '\\' :: 'u' :: h1 :: h2 :: h3 :: h4 :: cs =>
    match hexVal h1, hexVal h2, hexVal h3, hexVal h4 with
    | some a, some b, some c, some d =>
      match parseJStr cs with
      | some (s, rest) =>
        some (Char.ofNat (((a * 16 + b) * 16 + c) * 16 + d) :: s, rest)
      | none => none
    | _, _, _, _ => none
  | '\\' :: e :: cs =>
    match escChar e with
    | some ch =>
      match parseJStr cs with
      | some (s, rest) => some (ch :: s, rest)
      | none => none
    | none => none
  | c :: cs =>
    if c.toNat < 32 then none
    else
      match parseJStr cs with
      | some (s, rest) => some (c :: s, rest)
      | none => none

/-- Finish a JSON number: the optional exponent part, then apply the sign. -/
def finishNumber (neg : Bool) (m : ℚ) (cs : List Char) : Option (ℚ × List Char) :=
  match cs with
  | e :: rest =>
    if e = 'e' ∨ e = 'E' then
      let p : Bool × List Char :=
        match rest with
        | '-' :: t => (true, t)
        | '+' :: t => (false, t)
        | _ => (false, rest)
      let d := splitDigits p.2
      if d.1 = [] then none
      else
        let k := digitsToNat d.1
        let v := if p.1 then m / 10 ^ k else m * 10 ^ k
        some ((if neg then -v else v), d.2)
    else some ((if neg then -m else m), cs)
  | [] => some ((if neg then -m else m), cs)

/-- Continue a JSON number after the integer part: optional fraction. -/
def fracNumber (neg : Bool) (ip : ℕ) (cs : List Char) : Option (ℚ × List Char) :=
  match cs with
  | '.' :: rest =>
    let d := splitDigits rest
    if d.1 = [] then none
    else finishNumber neg ((ip : ℚ) + (digitsToNat d.1 : ℚ) / 10 ^ d.1.length) d.2
  | _ => finishNumber neg (ip : ℚ) cs

/-- Parse a JSON number (JSON grammar: no leading zeros, optional fraction
and exponent). -/
def parseNumber (cs : List Char) : Option (ℚ × List Char) :=
  let p : Bool × List Char :=
    match cs with
    | '-' :: t => (true, t)
    | _ => (false, cs)
  match p.2 with
  | c :: rest =>
    if c = '0' then fracNumber p.1 0 rest
    else if c.isDigit then
      let d := splitDigits rest
      fracNumber p.1 (digitsToNat (c :: d.1)) d.2
    else none
  | [] => none

mutual

/-- Fueled parser for a single JSON value (leading whitespace allowed). -/
def parseVal : ℕ → List Char → Option (JVal × List Char)
  | 0, _ => none
  | fuel + 1, cs =>
    match skipWs cs with
    | 't' :: 'r' :: 'u' :: 'e' :: rest => some (JVal.bool true, rest)
    | 'f' :: 'a' :: 'l' :: 's' :: 'e' :: rest => some (JVal.bool false, rest)
    | 'n' :: 'u' :: 'l' :: 'l' :: rest => some (JVal.null, rest)
    | '"' :: rest =>
      match parseJStr rest with
      | some (s, rest2) => some (JVal.str (String.mk s), rest2)
      | none => none
    | '[' :: rest =>
      match skipWs rest with
      | ']' :: rest2 => some (JVal.arr [], rest2)
      | _ =>
        match parseArrItems fuel rest with
        | some (vs, r) => some (JVal.arr vs, r)
        | none => none
    | '{' :: rest =>
      match skipWs rest with
      | '}' :: rest2 => some (JVal.obj [], rest2)
      | _ =>
        match parseObjItems fuel rest with
        | some (ms, r) => some (JVal.obj ms, r)
        | none => none
    | c :: rest =>
      match parseNumber (c :: rest) with
      | some (q, r) => some (JVal.num q, r)
      | none => none
    | [] => none

/-- Fueled parser for the comma-separated items of a JSON array, up to and
including the closing bracket. -/
def parseArrItems : ℕ → List Char → Option (List JVal × List Char)
  | 0, _ => none
  | fuel + 1, cs =>
    match parseVal fuel cs with
    | none => none
    | some (v, rest) =>
      match skipWs rest with
      | ',' :: rest2 =>
        match parseArrItems fuel rest2 with
        | some (vs, rest3) => some (v :: vs, rest3)
        | none => none
      | ']' :: rest2 => some ([v], rest2)
      | _ => none

/-- Fueled parser for the members of a JSON object, up to and including the
closing brace. -/
def parseObjItems : ℕ → List Char → Option (List (String × JVal) × List Char)
  | 0, _ => none
  | fuel + 1, cs =>
    match skipWs cs with
    | '"' :: rest =>
      match parseJStr rest with
      | none => none
      | some (k, rest2) =>
        match skipWs rest2 with
        | ':' :: rest3 =>
          match parseVal fuel rest3 with
          | none => none
          | some (v, rest4) =>
            match skipWs rest4 with
            | ',' :: rest5 =>
              match parseObjItems fuel rest5 with
              | some (ms, rest6) => some ((String.mk k, v) :: ms, rest6)
              | none => none
            | '}' :: rest5 => some ([(String.mk k, v)], rest5)
            | _ => none
        | _ => none
    | _ => none

end

/-- Model of Python's json.loads on the extracted substring: parse one JSON
value and require that only whitespace remains. -/
def json_loads (cs : List Char) : Option JVal :=
  match parseVal (2 * cs.length + 2) cs with
  | some (v, rest) => if skipWs rest = [] then some v else none
  | none => none

/-- Model of re.search of the pattern brace-dot-star-brace with DOTALL on the
reply text (main.py line 63): the greedy match runs from the first opening
brace to the last closing brace, provided the latter comes strictly after
the former; otherwise there is no match. -/
def extract_braces (cs : List Char) : Option (List Char) :=
  match List.findIdx? (fun c => c == '{') cs,
        List.findIdx? (fun c => c == '}') cs.reverse with
  | some i, some rj =>
    let j := cs.length - 1 - rj
    if i < j then some ((cs.drop i).take (j + 1 - i)) else none
  | _, _ => none

/-- First-occurrence lookup in an association list; Python dict indexing for
the unique-key dicts the program builds. -/
def tableGet {α : Type} (k : String) : List (String × α) → Option α
  | [] => none
  | (k', v) :: rest => if k' = k then some v else tableGet k rest

/-- Model of dict.get(k, default) on a dict built from parsed JSON: with
duplicate JSON keys Python keeps the last binding, so the last occurrence
wins. -/
def dGet (d : List (String × JVal)) (k : String) (dflt : JVal) : JVal :=
  (tableGet k d.reverse).getD dflt

/-- The keys of a modelled dict, in insertion order. -/
def dictKeys {α : Type} (d : List (String × α)) : List String := d.map Prod.fst

/-- The six schema fields of the normalized result (main.py lines 69-76). -/
def sixKeys : List String :=
  ["risk_level", "description", "recommendations", "elevation",
   "distance_from_water", "image_analysis"]

/-- The dict built by parse_gemini_response when the embedded JSON parses
(main.py lines 69-76): each schema field read with dict.get and a fixed
default. -/
def sixFieldDict (p : List (String × JVal)) : List (String × JVal) :=
  [("risk_level", dGet p ("risk_level") (JVal.str ("Medium"))),
   ("description", dGet p ("description") (JVal.str ("Analysis Completed."))),
   ("recommendations", dGet p ("recommendations") (JVal.arr [])),
   ("elevation", dGet p ("elevation") (JVal.num 50)),
   ("distance_from_water", dGet p ("distance_from_water") (JVal.num 1000)),
   ("image_analysis", dGet p ("image_analysis") (JVal.str ("")))]

/-- The dict built by parse_gemini_response's exception handler
(main.py lines 80-87): fixed defaults, with the whole reply text in
image_analysis. -/
def defaultDict (response_text : String) : List (String × JVal) :=
  [("risk_level", JVal.str ("Medium")),
   ("description", JVal.str ("Analysis Completed with default values.")),
   ("recommendations", JVal.arr
     [JVal.str ("Monitor local weather forecasts"),
      JVal.str ("Ensure proper drainage"),
      JVal.str ("Have an evacuation plan")]),
   ("elevation", JVal.num 50),
   ("distance_from_water", JVal.num 1000),
   ("image_analysis", JVal.str response_text)]

/-- Model of parse_gemini_response (main.py lines 58-87).  The regex match is
`extract_braces`; a successful json.loads of the matched substring yields the
six-field dict; an exception from json.loads (or from .get on a non-dict
value) is caught and yields the default dict.  When the regex does not match,
the try block completes without returning and the Python function returns
None, modelled as `none`. -/
def parse_gemini_response (response_text : String) : Option (List (String × JVal)) :=
  match extract_braces response_text.toList with
  | some js =>
    match json_loads js with
    | some (JVal.obj parsed) => some (sixFieldDict parsed)
    | _ => some (defaultDict response_text)
  | none => none

/-- The label selected by random.choice over the four risk labels
(main.py line 94), keyed by the index the random source drew. -/
def pickLabel (pick : Fin 4) : String :=
  match pick.val with
  | 0 => "Low"
  | 1 => "Medium"
  | 2 => "High"
  | _ => "Very High"

/-- The fixed description table of the Fallback Generator (main.py 96-101). -/
def descriptionsTable : List (String × String) :=
  [("Low", "Image analysis shows low flood risk terrain."),
   ("Medium", "Image analysis indicates moderate flood risk with some water bodies nearby."),
   ("High", "Image analysis reveals high flood risk characteristics."),
   ("Very High", "Image analysis shows very high flood risk indicators.")]

/-- The fixed recommendations table of the Fallback Generator
(main.py 104-125). -/
def recommendationsTable : List (String × List String) :=
  [("Low",
    ["Continue monitoring terrain changes",
     "Maintain current drainage systems",
     "Stay informed about weather patterns"]),
   ("Medium",
    ["Improve drainage infrastructure",
     "Consider flood monitoring systems",
     "Develop emergency response plan"]),
   ("High",
    ["Install comprehensive flood barriers",
     "Implement early warning systems",
     "Consider structural reinforcements"]),
   ("Very High",
    ["Immediate flood protection measures needed",
     "Consider relocation to higher ground",
     "Implement comprehensive emergency protocols"])]

/-- Python's round to the nearest integer with ties to even (banker's
rounding), idealized over the rationals. -/
def roundHalfEven (y : ℚ) : ℤ :=
  if y - ⌊y⌋ < 1 / 2 then ⌊y⌋
  else if 1 / 2 < y - ⌊y⌋ then ⌊y⌋ + 1
  else if ⌊y⌋ % 2 = 0 then ⌊y⌋ else ⌊y⌋ + 1

/-- Python's round(x, 1): round to one decimal place. -/
def round1 (x : ℚ) : ℚ := (roundHalfEven (x * 10) : ℚ) / 10

/-- Model of generate_image_risk_assessment (main.py lines 90-133).  The
random draws are passed in: `pick` is the index random.choice drew and
`eS`, `dS` are the uniform samples from [10, 100] and [200, 2000].  The
Python dict indexing descriptions[risk_level] is total for the four labels;
its model defaults to the empty value on the unreachable missing-key case. -/
def generate_image_risk_assessment (pick : Fin 4) (eS dS : ℚ) :
    List (String × JVal) :=
  [("risk_level", JVal.str (pickLabel pick)),
   ("description", JVal.str ((tableGet (pickLabel pick) descriptionsTable).getD (""))),
   ("recommendations", JVal.arr
     (((tableGet (pickLabel pick) recommendationsTable).getD []).map JVal.str)),
   ("elevation", JVal.num (round1 eS)),
   ("distance_from_water", JVal.num (round1 dS))]

/-- The quota-error classification of main.py line 211: the error text
contains RESOURCE_EXHAUSTED, or contains quota after lowercasing. -/
def isQuotaError (e : String) : Bool :=
  containsList ("RESOURCE_EXHAUSTED".toList) e.toList ||
    containsList ("quota".toList) (lowerList e.toList)

/-- max_retries of main.py line 194. -/
def max_retries : ℕ := 3

/-- The 10485760-byte upload limit of main.py line 161. -/
def limitBytes : ℕ := 10 * 1024 * 1024

/-- The fixed message written over image_analysis on the fallback path
(main.py line 221). -/
def quotaMessage : String :=
  "Image analysis was not available due to API quota limits. Using simulated assessment based on historical flood data patterns."

/-- Outcome of the retry loop of main.py lines 197-221: how many upstream
attempts ran, the sleeps performed (in order, in seconds), the final value
of the parsed_data variable (none models Python None), and whether the
fallback branch ran. -/
structure RetryResult where
  attempts : ℕ
  sleeps : List ℕ
  parsed : Option (List (String × JVal))
  viaFallback : Bool

/-- One unrolling of the for-loop over attempts (main.py lines 197-221).
`up` is the upstream oracle for model.generate_content plus .text: per
attempt index, either the reply text or the error's string form.
`remaining` counts the iterations the range still holds, so the loop test
attempt < max_retries - 1 is remaining > 1. `fb` is the dict the Fallback
Generator would return for this request's random draws. -/
def retryAux (up : ℕ → Except String String) (fb : List (String × JVal)) :
    ℕ → ℕ → ℕ → RetryResult
  | 0, attempt, _ => ⟨attempt, [], none, false⟩
  | remaining + 1, attempt, delay =>
    match up attempt with
    | Except.ok text => ⟨attempt + 1, [], parse_gemini_response text, false⟩
    | Except.error e =>
      match remaining with
      | 0 =>
        ⟨attempt + 1, [],
         some (fb ++ [("image_analysis", JVal.str quotaMessage)]), true⟩
      | r + 1 =>
        let d := if isQuotaError e then delay * 2 else delay
        let rest := retryAux up fb (r + 1) (attempt + 1) d
        ⟨rest.attempts, d :: rest.sleeps, rest.parsed, rest.viaFallback⟩

/-- The whole retry loop: max_retries total attempts, initial delay 2. -/
def retryLoop (up : ℕ → Except String String) (fb : List (String × JVal)) :
    RetryResult :=
  retryAux up fb max_retries 0 2

/-- The generic body FastAPI serves for an HTTPException with status 500
raised by the handler's catch-all (main.py line 233). -/
def errorBody : List (String × JVal) :=
  [("detail", JVal.str ("An error occurred while analyzing the image."))]

/-- The success response dict of main.py lines 224-229: success, the spread
of parsed_data, ai_analysis mirroring parsed_data.get of image_analysis,
and the fixed message.  The keys of parsed_data are always disjoint from
the three literal keys, so the spread is plain concatenation. -/
def buildResponse (pd : List (String × JVal)) : List (String × JVal) :=
  ("success", JVal.bool true) ::
    pd ++
      [("ai_analysis", dGet pd ("image_analysis") (JVal.str (""))),
       ("message", JVal.str ("Image analyzed successfully using Gemini AI."))]

/-- The fixed per-field default the Normalizer substitutes for a missing
schema field (main.py lines 70-75), keyed by field name; the catch-all arm
is the image_analysis default and is only consulted at the six keys. -/
def schemaDefault : String → JVal
  | "risk_level" => JVal.str ("Medium")
  | "description" => JVal.str ("Analysis Completed.")
  | "recommendations" => JVal.arr []
  | "elevation" => JVal.num 50
  | "distance_from_water" => JVal.num 1000
  | _ => JVal.str ("")

/-- Model of the analyze_image handler (main.py lines 146-233) as a function
from the request-level facts to status code and response body.  Each
validation failure raises HTTPException(400), but that exception is caught
by the handler's own catch-all except at line 231 and re-raised as
HTTPException(500), so every raising path produces a 500 response.  When
parse_gemini_response returned None, the double-star unpacking of
parsed_data at line 226 raises TypeError, likewise caught and turned into
a 500. -/
def analyze_image (content_type : String) (body_len : ℕ) (decodable : Bool)
    (up : ℕ → Except String String) (pick : Fin 4) (eS dS : ℚ) :
    ℕ × List (String × JVal) :=
  if listPref ("image/".toList) content_type.toList = false then (500, errorBody)
  else if limitBytes < body_len then (500, errorBody)
  else if decodable = false then (500, errorBody)
  else
    match (retryLoop up (generate_image_risk_assessment pick eS dS)).parsed with
    | none => (500, errorBody)
    | some pd => (200, buildResponse pd)

/-- Simulated upstream that succeeds immediately with a reply containing no
brace-delimited substring. -/
def upNoBraces : ℕ → Except String String := fun _ => Except.ok ("It is flooded")

/-- Simulated upstream that fails on every attempt with a non-quota error. -/
def upAllFail : ℕ → Except String String := fun _ => Except.error ("boom")

/-- Simulated upstream that fails twice, then succeeds with an empty JSON
object reply. -/
def upTwoFailThenOk : ℕ → Except String String :=
  fun i => if i < 2 then Except.error ("boom") else Except.ok ("\x7b\x7d")

/-- Simulated upstream whose first failure is quota-classified and whose
second is not. -/
def upQuotaThenPlain : ℕ → Except String String :=
  fun i => if i = 0 then Except.error ("quota hit") else Except.error ("boom")

/-- Simulated upstream that succeeds immediately with an empty JSON object
reply. -/
def upEmptyObj : ℕ → Except String String := fun _ => Except.ok ("\x7b\x7d")

/-- A reply text that is exactly a JSON object carrying all six schema
fields. -/
def allSixText : String :=
  "\x7b\"risk_level\": \"Low\", \"description\": \"d\", \"recommendations\": [\"a\"], \"elevation\": \"e\", \"distance_from_water\": \"w\", \"image_analysis\": \"ia\"\x7d"

/-- The object json.loads produces from allSixText. -/
def allSixParsed : List (String × JVal) :=
  [("risk_level", JVal.str ("Low")),
   ("description", JVal.str ("d")),
   ("recommendations", JVal.arr [JVal.str ("a")]),
   ("elevation", JVal.str ("e")),
   ("distance_from_water", JVal.str ("w")),
   ("image_analysis", JVal.str ("ia"))]

/-- A reply text whose JSON object carries one schema field plus an extra
field outside the schema. -/
def extraFieldText : String :=
  "\x7b\"foo\": \"x\", \"elevation\": \"high\"\x7d"

/-- The object json.loads produces from extraFieldText. -/
def extraFieldParsed : List (String × JVal) :=
  [("foo", JVal.str ("x")), ("elevation", JVal.str ("high"))]

/-- A reply text that contains the well-formed JSON object
greedyInnerText but whose greedy first-brace-to-last-brace match adds a
trailing fragment that breaks the parse. -/
def greedyText : String := "\x7b\"risk_level\": \"High\"\x7d x \x7d"

/-- The well-formed JSON object embedded in greedyText. -/
def greedyInnerText : String := "\x7b\"risk_level\": \"High\"\x7d"

/-- A successful first-occurrence lookup exhibits a member. -/
theorem tableGet_some_mem {α : Type} {k : String} {v : α} :
    ∀ {l : List (String × α)}, tableGet k l = some v → (k, v) ∈ l := by
  intro l
  induction l with
  | nil => intro h; simp [tableGet] at h
  | cons hd tl ih =>
    intro h
    rcases hd with ⟨k', v'⟩
    by_cases hk : k' = k
    · subst hk
      simp [tableGet] at h
      subst h
      exact List.mem_cons_self _ _
    · simp [tableGet, hk] at h
      exact List.mem_cons_of_mem _ (ih h)

/-- With unique keys, membership determines the first-occurrence lookup. -/
theorem tableGet_eq_of_mem {α : Type} {k : String} {v : α} :
    ∀ {l : List (String × α)}, (dictKeys l).Nodup → (k, v) ∈ l →
      tableGet k l = some v := by
  intro l
  induction l with
  | nil => intro _ h; simp at h
  | cons hd tl ih =>
    intro hnd h
    rcases hd with ⟨k', v'⟩
    simp [dictKeys] at hnd
    rcases List.mem_cons.mp h with heq | hmem
    · rcases Prod.mk.injEq .. ▸ heq with ⟨hk, hv⟩
      subst hk; subst hv
      simp [tableGet]
    · have hkk : k' ≠ k := by
        intro hkk
        subst hkk
        exact hnd.1 v (by simpa using hmem)
      simp [tableGet, hkk]
      exact ih hnd.2 hmem

/-- Lookup of an absent key fails. -/
theorem tableGet_eq_none {α : Type} {k : String} :
    ∀ {l : List (String × α)}, k ∉ dictKeys l → tableGet k l = none := by
  intro l
  induction l with
  | nil => intro _; rfl
  | cons hd tl ih =>
    intro h
    rcases hd with ⟨k', v'⟩
    simp [dictKeys] at h
    have hne : ¬k' = k := fun hk => h.1 hk.symm
    simp [tableGet, hne, ih (by simpa [dictKeys] using h.2)]

/-- Lookup walks past a block of pairs whose keys all differ from the key. -/
theorem tableGet_append {α : Type} {k : String} :
    ∀ {l l2 : List (String × α)}, k ∉ dictKeys l →
      tableGet k (l ++ l2) = tableGet k l2 := by
  intro l l2
  induction l with
  | nil => intro _; rfl
  | cons hd tl ih =>
    intro h
    rcases hd with ⟨k', v'⟩
    simp [dictKeys] at h
    have hne : ¬k' = k := fun hk => h.1 hk.symm
    simp [tableGet, hne, ih (by simpa [dictKeys] using h.2)]

/-- With unique keys, dict.get returns the value of a present key. -/
theorem dGet_eq_of_mem {k : String} {v : JVal} {l : List (String × JVal)}
    (hnd : (dictKeys l).Nodup) (h : (k, v) ∈ l) (dflt : JVal) :
    dGet l k dflt = v := by
  have hrev : (dictKeys l.reverse).Nodup := by
    simpa [dictKeys, List.map_reverse] using (List.nodup_reverse.mpr hnd)
  have : tableGet k l.reverse = some v :=
    tableGet_eq_of_mem hrev (List.mem_reverse.mpr h)
  simp [dGet, this]

/-- dict.get of an absent key returns the default. -/
theorem dGet_eq_default {k : String} {l : List (String × JVal)}
    (h : k ∉ dictKeys l) (dflt : JVal) : dGet l k dflt = dflt := by
  have : tableGet k l.reverse = none := by
    apply tableGet_eq_none
    simpa [dictKeys, List.map_reverse] using h
  simp [dGet, this]

/-- The normalized dict reads each schema field with dict.get and that
field's fixed default. -/
theorem sixFieldDict_lookup (p : List (String × JVal)) :
    ∀ k ∈ sixKeys, tableGet k (sixFieldDict p) = some (dGet p k (schemaDefault k)) := by
  intro k hk
  simp [sixKeys] at hk
  rcases hk with h | h | h | h | h | h <;> subst h <;> rfl

/-- Both dicts the Normalizer can return carry exactly the six schema keys
in schema order. -/
theorem parse_keys {t : String} {pd : List (String × JVal)}
    (h : parse_gemini_response t = some pd) : dictKeys pd = sixKeys := by
  unfold parse_gemini_response at h
  rcases hext : extract_braces t.toList with _ | js
  · rw [hext] at h; exact absurd h (by simp)
  · rw [hext] at h
    simp only [] at h
    rcases hl : json_loads js with _ | v
    · rw [hl] at h
      simp at h
      subst h
      rfl
    · rw [hl] at h
      rcases v with s | q | b | a | o | _ <;> simp at h <;> subst h <;> rfl

/-- The bankers rounding of a value is the floor or the floor plus one. -/
theorem roundHalfEven_cases (y : ℚ) :
    roundHalfEven y = ⌊y⌋ ∨ roundHalfEven y = ⌊y⌋ + 1 := by
  unfold roundHalfEven
  split_ifs <;> simp

/-- Bankers rounding respects an integer upper bound. -/
theorem roundHalfEven_le {y : ℚ} {b : ℤ} (h : y ≤ (b : ℚ)) :
    roundHalfEven y ≤ b := by
  have hfl : ⌊y⌋ ≤ b := by
    have := Int.floor_le_floor h
    simpa using this
  have hfly : (⌊y⌋ : ℚ) ≤ y := Int.floor_le y
  unfold roundHalfEven
  split_ifs with h1 h2 h3
  · exact hfl
  · have : (⌊y⌋ : ℚ) < (b : ℚ) - 1 / 2 := by linarith
    have : (⌊y⌋ : ℚ) < (b : ℚ) := by linarith
    have : ⌊y⌋ < b := by exact_mod_cast this
    omega
  · exact hfl
  · have hr : y - ⌊y⌋ = 1 / 2 := le_antisymm (not_lt.mp h2) (not_lt.mp h1)
    have : (⌊y⌋ : ℚ) < (b : ℚ) := by linarith
    have : ⌊y⌋ < b := by exact_mod_cast this
    omega

/-- Bankers rounding respects an integer lower bound. -/
theorem le_roundHalfEven {y : ℚ} {a : ℤ} (h : (a : ℚ) ≤ y) :
    a ≤ roundHalfEven y := by
  have hfl : a ≤ ⌊y⌋ := Int.le_floor.mpr h
  rcases roundHalfEven_cases y with hc | hc <;> omega

/-- round(x, 1) of a value between two integer bounds stays between them. -/
theorem round1_bounds {x : ℚ} {a b : ℤ} (ha : (a : ℚ) ≤ x) (hb : x ≤ (b : ℚ)) :
    (a : ℚ) ≤ round1 x ∧ round1 x ≤ (b : ℚ) := by
  have h10a : ((10 * a : ℤ) : ℚ) ≤ x * 10 := by push_cast; linarith
  have h10b : x * 10 ≤ ((10 * b : ℤ) : ℚ) := by push_cast; linarith
  have hlo : (10 * a : ℤ) ≤ roundHalfEven (x * 10) := le_roundHalfEven h10a
  have hhi : roundHalfEven (x * 10) ≤ (10 * b : ℤ) := roundHalfEven_le h10b
  have hlo' : ((10 * a : ℤ) : ℚ) ≤ (roundHalfEven (x * 10) : ℚ) := by
    exact_mod_cast hlo
  have hhi' : ((roundHalfEven (x * 10) : ℤ) : ℚ) ≤ ((10 * b : ℤ) : ℚ) := by
    exact_mod_cast hhi
  constructor
  · unfold round1
    push_cast at hlo' ⊢
    linarith
  · unfold round1
    push_cast at hhi' ⊢
    linarith

/-- round(x, 1) lands on the tenths grid. -/
theorem round1_tenth (x : ℚ) : ∃ z : ℤ, round1 x * 10 = (z : ℚ) := by
  refine ⟨roundHalfEven (x * 10), ?_⟩
  unfold round1
  field_simp

/-- The retry loop runs at most the number of iterations the range holds. -/
theorem retryAux_attempts_le (up : ℕ → Except String String)
    (fb : List (String × JVal)) :
    ∀ (r a d : ℕ), (retryAux up fb r a d).attempts ≤ a + r := by
  intro r
  induction r with
  | zero => intro a d; simp [retryAux]
  | succ r ih =>
    intro a d
    unfold retryAux
    rcases up a with e | text
    · rcases r with _ | r'
      · simp
      · simpa using Nat.le_trans (ih (a + 1) _) (by omega)
    · simp

theorem retryAux1_ok (up : ℕ → Except String String) (fb : List (String × JVal))
    (a d : ℕ) (text : String) (h : up a = Except.ok text) :
    retryAux up fb 1 a d = ⟨a + 1, [], parse_gemini_response text, false⟩ := by
  show retryAux up fb (0 + 1) a d = _
  conv_lhs => unfold retryAux
  rw [h]

theorem retryAux1_err (up : ℕ → Except String String) (fb : List (String × JVal))
    (a d : ℕ) (e : String) (h : up a = Except.error e) :
    retryAux up fb 1 a d =
      ⟨a + 1, [], some (fb ++ [("image_analysis", JVal.str quotaMessage)]), true⟩ := by
  show retryAux up fb (0 + 1) a d = _
  conv_lhs => unfold retryAux
  rw [h]

theorem retryAux2_ok (up : ℕ → Except String String) (fb : List (String × JVal))
    (a d : ℕ) (text : String) (h : up a = Except.ok text) :
    retryAux up fb 2 a d = ⟨a + 1, [], parse_gemini_response text, false⟩ := by
  show retryAux up fb (1 + 1) a d = _
  conv_lhs => unfold retryAux
  rw [h]

theorem retryAux2_err (up : ℕ → Except String String) (fb : List (String × JVal))
    (a d : ℕ) (e : String) (h : up a = Except.error e) :
    retryAux up fb 2 a d =
      ⟨(retryAux up fb 1 (a + 1) (if isQuotaError e then d * 2 else d)).attempts,
       (if isQuotaError e then d * 2 else d) ::
         (retryAux up fb 1 (a + 1) (if isQuotaError e then d * 2 else d)).sleeps,
       (retryAux up fb 1 (a + 1) (if isQuotaError e then d * 2 else d)).parsed,
       (retryAux up fb 1 (a + 1) (if isQuotaError e then d * 2 else d)).viaFallback⟩ := by
  show retryAux up fb (1 + 1) a d = _
  conv_lhs => unfold retryAux
  rw [h]

theorem retryAux3_ok (up : ℕ → Except String String) (fb : List (String × JVal))
    (a d : ℕ) (text : String) (h : up a = Except.ok text) :
    retryAux up fb 3 a d = ⟨a + 1, [], parse_gemini_response text, false⟩ := by
  show retryAux up fb (2 + 1) a d = _
  conv_lhs => unfold retryAux
  rw [h]

theorem retryAux3_err (up : ℕ → Except String String) (fb : List (String × JVal))
    (a d : ℕ) (e : String) (h : up a = Except.error e) :
    retryAux up fb 3 a d =
      ⟨(retryAux up fb 2 (a + 1) (if isQuotaError e then d * 2 else d)).attempts,
       (if isQuotaError e then d * 2 else d) ::
         (retryAux up fb 2 (a + 1) (if isQuotaError e then d * 2 else d)).sleeps,
       (retryAux up fb 2 (a + 1) (if isQuotaError e then d * 2 else d)).parsed,
       (retryAux up fb 2 (a + 1) (if isQuotaError e then d * 2 else d)).viaFallback⟩ := by
  show retryAux up fb (2 + 1) a d = _
  conv_lhs => unfold retryAux
  rw [h]

theorem retryLoop_ok0 (up : ℕ → Except String String) (fb : List (String × JVal))
    (text : String) (h0 : up 0 = Except.ok text) :
    retryLoop up fb = ⟨1, [], parse_gemini_response text, false⟩ := by
  unfold retryLoop max_retries
  rw [retryAux3_ok up fb 0 2 text h0]

theorem retryLoop_e0_ok1 (up : ℕ → Except String String) (fb : List (String × JVal))
    (e0 text : String) (h0 : up 0 = Except.error e0) (h1 : up 1 = Except.ok text) :
    retryLoop up fb =
      ⟨2, [if isQuotaError e0 then 2 * 2 else 2], parse_gemini_response text, false⟩ := by
  unfold retryLoop max_retries
  rw [retryAux3_err up fb 0 2 e0 h0, retryAux2_ok up fb 1 _ text h1]

theorem retryLoop_e01_ok2 (up : ℕ → Except String String) (fb : List (String × JVal))
    (e0 e1 text : String) (h0 : up 0 = Except.error e0) (h1 : up 1 = Except.error e1)
    (h2 : up 2 = Except.ok text) :
    retryLoop up fb =
      ⟨3,
       [if isQuotaError e0 then 2 * 2 else 2,
        if isQuotaError e1 then (if isQuotaError e0 then 2 * 2 else 2) * 2
        else if isQuotaError e0 then 2 * 2 else 2],
       parse_gemini_response text, false⟩ := by
  unfold retryLoop max_retries
  rw [retryAux3_err up fb 0 2 e0 h0, retryAux2_err up fb 1 _ e1 h1,
    retryAux1_ok up fb 2 _ text h2]

theorem retryLoop_e012 (up : ℕ → Except String String) (fb : List (String × JVal))
    (e0 e1 e2 : String) (h0 : up 0 = Except.error e0) (h1 : up 1 = Except.error e1)
    (h2 : up 2 = Except.error e2) :
    retryLoop up fb =
      ⟨3,
       [if isQuotaError e0 then 2 * 2 else 2,
        if isQuotaError e1 then (if isQuotaError e0 then 2 * 2 else 2) * 2
        else if isQuotaError e0 then 2 * 2 else 2],
       some (fb ++ [("image_analysis", JVal.str quotaMessage)]), true⟩ := by
  unfold retryLoop max_retries
  rw [retryAux3_err up fb 0 2 e0 h0, retryAux2_err up fb 1 _ e1 h1,
    retryAux1_err up fb 2 _ e2 h2]

/-- When the upload passes validation, the handler's response is determined
by the final value of parsed_data: a dict yields the 200 success body and
Python None yields the catch-all 500. -/
theorem analyze_image_of_valid (ct : String) (n : ℕ)
    (up : ℕ → Except String String) (pick : Fin 4) (eS dS : ℚ)
    (hct : listPref ("image/".toList) ct.toList = true) (hn : n ≤ limitBytes) :
    analyze_image ct n true up pick eS dS =
      (match (retryLoop up (generate_image_risk_assessment pick eS dS)).parsed with
       | none => (500, errorBody)
       | some pd => (200, buildResponse pd)) := by
  unfold analyze_image
  rw [hct]
  have hlt : ¬ limitBytes < n := Nat.not_lt.mpr hn
  simp [hlt]

/-- Any final parsed_data dict of the retry loop either came from the
Normalizer or is the fallback dict with image_analysis appended. -/
theorem retryAux_parsed_cases (up : ℕ → Except String String)
    (fb : List (String × JVal)) :
    ∀ (r a d : ℕ) (pd : List (String × JVal)),
      (retryAux up fb r a d).parsed = some pd →
      (∃ text, parse_gemini_response text = some pd) ∨
        pd = fb ++ [("image_analysis", JVal.str quotaMessage)] := by
  intro r
  induction r with
  | zero => intro a d pd h; simp [retryAux] at h
  | succ r ih =>
    intro a d pd h
    unfold retryAux at h
    rcases hup : up a with e | text
    · rw [hup] at h
      rcases r with _ | r'
      · simp at h
        exact Or.inr h.symm
      · simp only [] at h
        exact ih (a + 1) _ pd h
    · rw [hup] at h
      simp at h
      exact Or.inl ⟨text, h⟩

/-- The keys of the fallback dict after the image_analysis overwrite are
exactly the six schema keys in schema order. -/
theorem fallback_overwrite_keys (pick : Fin 4) (eS dS : ℚ) :
    dictKeys (generate_image_risk_assessment pick eS dS ++
      [("image_analysis", JVal.str quotaMessage)]) = sixKeys := rfl

/-- When the k-th attempt (0-based) is the first success, the loop records
k+1 attempts, stores the Normalizer's value, and skips the fallback. -/
theorem retryLoop_success_at (up : ℕ → Except String String)
    (fb : List (String × JVal)) (k : ℕ) (text : String) (hk : k < max_retries)
    (herr : ∀ i, i < k → ∃ e, up i = Except.error e)
    (hok : up k = Except.ok text) :
    (retryLoop up fb).attempts = k + 1 ∧
    (retryLoop up fb).parsed = parse_gemini_response text ∧
    (retryLoop up fb).viaFallback = false := by
  have hk3 : k < 3 := hk
  interval_cases k
  · rw [retryLoop_ok0 up fb text hok]
    exact ⟨rfl, rfl, rfl⟩
  · obtain ⟨e0, h0⟩ := herr 0 (by norm_num)
    rw [retryLoop_e0_ok1 up fb e0 text h0 hok]
    exact ⟨rfl, rfl, rfl⟩
  · obtain ⟨e0, h0⟩ := herr 0 (by norm_num)
    obtain ⟨e1, h1⟩ := herr 1 (by norm_num)
    rw [retryLoop_e01_ok2 up fb e0 e1 text h0 h1 hok]
    exact ⟨rfl, rfl, rfl⟩

/-- After a first failed attempt the first sleep is fully determined by the
classification of the first error. -/
theorem retryLoop_first_sleep (up : ℕ → Except String String)
    (fb : List (String × JVal)) (e : String) (h0 : up 0 = Except.error e) :
    (retryLoop up fb).sleeps.headI = if isQuotaError e then 2 * 2 else 2 := by
  rcases h1 : up 1 with e1 | t1
  · rcases h2 : up 2 with e2 | t2
    · rw [retryLoop_e012 up fb e e1 e2 h0 h1 h2]
      rfl
    · rw [retryLoop_e01_ok2 up fb e e1 t2 h0 h1 h2]
      rfl
  · rw [retryLoop_e0_ok1 up fb e t1 h0 h1]
    rfl

/-- C1: every validation failure of the upload (content type not an image,
body over 10 MiB, undecodable bytes) yields an HTTP 500 response, not the
400 the claim states: the handler's own catch-all except clause at
main.py line 231 catches the HTTPException(400) it just raised at lines
156, 162 and 172 and re-raises it as HTTPException(500).  The response is
also independent of the upstream oracle, so no retry is observable. -/
theorem flood_c1_validation_failures_yield_500 :
    ∀ (up : ℕ → Except String String) (pick : Fin 4) (eS dS : ℚ),
      analyze_image ("text/plain") 0 true up pick eS dS = (500, errorBody) ∧
      analyze_image ("image/png") (limitBytes + 1) true up pick eS dS =
        (500, errorBody) ∧
      analyze_image ("image/png") 0 false up pick eS dS = (500, errorBody) := by
  intro up pick eS dS
  exact ⟨rfl, rfl, rfl⟩

/-- C2: the Response Normalizer is not total: on a reply text with no
brace-delimited substring the regex does not match, the try block of
parse_gemini_response falls through without returning, and the function
returns Python None rather than the claimed default dict; the handler then
dies unpacking None and the request ends in a 500. -/
theorem flood_c2_normalizer_returns_none_without_braces :
    parse_gemini_response ("It is flooded") = none ∧
    ∀ (pick : Fin 4) (eS dS : ℚ),
      analyze_image ("image/png") 3 true upNoBraces pick eS dS =
        (500, errorBody) :=
  ⟨rfl, fun _ _ _ => rfl⟩

set_option maxRecDepth 8000 in
/-- C3 counterexample: greedyText contains the well-formed JSON object
greedyInnerText with risk_level High, yet because the regex match is greedy
(first brace to last brace) the matched substring fails json.loads and the
Normalizer returns the fixed default dict: risk_level Medium, not the
field-wise values of the contained object. -/
theorem flood_c3_counterexample :
    greedyText = greedyInnerText ++ " x \x7d" ∧
    json_loads greedyInnerText.toList =
      some (JVal.obj [("risk_level", JVal.str ("High"))]) ∧
    parse_gemini_response greedyText = some (defaultDict greedyText) ∧
    tableGet ("risk_level") (defaultDict greedyText) =
      some (JVal.str ("Medium")) ∧
    JVal.str ("Medium") ≠ JVal.str ("High") := by
  refine ⟨rfl, rfl, rfl, rfl, ?_⟩
  intro hcon
  exact absurd (JVal.str.inj hcon) (by decide)

/-- C3 amended: for every raw reply text whose greedy first-brace-to-last-
brace substring parses as a JSON object, the Normalizer's output is
field-wise: each of the six expected fields is the JSON object's value when
present (all other present schema fields passed through unchanged), and
otherwise that field's fixed default. -/
theorem flood_c3_fieldwise_amended :
    ∀ (text : String) (js : List Char) (p : List (String × JVal)),
      extract_braces text.toList = some js →
      json_loads js = some (JVal.obj p) →
      parse_gemini_response text = some (sixFieldDict p) ∧
      (∀ k, k ∈ sixKeys → (dictKeys p).Nodup →
        ∀ v, (k, v) ∈ p → tableGet k (sixFieldDict p) = some v) ∧
      (∀ k, k ∈ sixKeys → k ∉ dictKeys p →
        tableGet k (sixFieldDict p) = some (schemaDefault k)) := by
  intro text js p hext hl
  refine ⟨?_, ?_, ?_⟩
  · unfold parse_gemini_response
    rw [hext]
    simp only []
    rw [hl]
  · intro k hk hnd v hv
    rw [sixFieldDict_lookup p k hk, dGet_eq_of_mem hnd hv]
  · intro k hk hnk
    rw [sixFieldDict_lookup p k hk, dGet_eq_default hnk]

set_option maxRecDepth 8000 in
/-- C3 witness: a reply that is exactly a JSON object with all six schema
fields normalizes to exactly those values, no defaults substituted. -/
theorem flood_c3_fieldwise_witness :
    parse_gemini_response allSixText = some (sixFieldDict allSixParsed) ∧
    tableGet ("elevation") (sixFieldDict allSixParsed) =
      some (JVal.str ("e")) ∧
    tableGet ("risk_level") (sixFieldDict allSixParsed) =
      some (JVal.str ("Low")) := by
  have h := flood_c3_fieldwise_amended allSixText allSixText.toList allSixParsed
    rfl rfl
  refine ⟨h.1, ?_, ?_⟩
  · exact h.2.1 ("elevation") (by decide) (by decide) (JVal.str ("e"))
      (by simp [allSixParsed])
  · exact h.2.1 ("risk_level") (by decide) (by decide) (JVal.str ("Low"))
      (by simp [allSixParsed])

/-- C10: when the embedded JSON parses, the Normalizer's dict carries
exactly the six schema keys; any other field of the parsed object is
discarded. -/
theorem flood_c10_exactly_six_keys :
    ∀ (text : String) (js : List Char) (p pd : List (String × JVal)),
      extract_braces text.toList = some js →
      json_loads js = some (JVal.obj p) →
      parse_gemini_response text = some pd →
      dictKeys pd = sixKeys ∧ ∀ k, k ∉ sixKeys → tableGet k pd = none := by
  intro text js p pd _ _ hp
  have hk := parse_keys hp
  exact ⟨hk, fun k hnk => tableGet_eq_none (by rw [hk]; exact hnk)⟩

set_option maxRecDepth 8000 in
/-- C10 witness: a reply whose JSON object has an extra field foo produces
a dict with exactly the six schema keys and no foo. -/
theorem flood_c10_witness :
    dictKeys (sixFieldDict extraFieldParsed) = sixKeys ∧
    tableGet ("foo") (sixFieldDict extraFieldParsed) = none := by
  have h := flood_c10_exactly_six_keys extraFieldText extraFieldText.toList
    extraFieldParsed (sixFieldDict extraFieldParsed) rfl rfl rfl
  exact ⟨h.1, h.2 ("foo") (by decide)⟩

/-- C4: when all three upstream attempts fail, the handler returns the
Fallback Generator's dict with its image_analysis overwritten by the fixed
quota message, with HTTP status 200 and success true. -/
theorem flood_c4_exhaustion_returns_fallback_200 :
    ∀ (ct : String) (n : ℕ) (up : ℕ → Except String String)
      (e0 e1 e2 : String) (pick : Fin 4) (eS dS : ℚ),
      listPref ("image/".toList) ct.toList = true → n ≤ limitBytes →
      up 0 = Except.error e0 → up 1 = Except.error e1 →
      up 2 = Except.error e2 →
      analyze_image ct n true up pick eS dS =
        (200, buildResponse (generate_image_risk_assessment pick eS dS ++
          [("image_analysis", JVal.str quotaMessage)])) ∧
      tableGet ("success")
        (buildResponse (generate_image_risk_assessment pick eS dS ++
          [("image_analysis", JVal.str quotaMessage)])) =
        some (JVal.bool true) ∧
      tableGet ("image_analysis")
        (buildResponse (generate_image_risk_assessment pick eS dS ++
          [("image_analysis", JVal.str quotaMessage)])) =
        some (JVal.str quotaMessage) := by
  intro ct n up e0 e1 e2 pick eS dS hct hn h0 h1 h2
  refine ⟨?_, rfl, rfl⟩
  rw [analyze_image_of_valid ct n up pick eS dS hct hn,
    retryLoop_e012 up _ e0 e1 e2 h0 h1 h2]

/-- C4 witness: a concrete upstream failing on all three attempts yields
the 200 fallback response. -/
theorem flood_c4_witness :
    analyze_image ("image/png") 0 true upAllFail 0 10 200 =
      (200, buildResponse (generate_image_risk_assessment 0 10 200 ++
        [("image_analysis", JVal.str quotaMessage)])) :=
  (flood_c4_exhaustion_returns_fallback_200 ("image/png") 0 upAllFail
    ("boom") ("boom") ("boom") 0 10 200 rfl (by decide) rfl rfl rfl).1

/-- C5: the Orchestrator makes at most 3 attempts; if the upstream first
succeeds on 0-based attempt k (so on the (k+1)-st total attempt), exactly
k+1 attempts are made, the Normalizer's value for that attempt's reply is
stored, the fallback is not invoked, and (when that value is a dict) the
handler returns it with status 200. -/
theorem flood_c5_success_stops_retrying :
    (∀ (up : ℕ → Except String String) (fb : List (String × JVal)),
      (retryLoop up fb).attempts ≤ max_retries) ∧
    (∀ (up : ℕ → Except String String) (fb : List (String × JVal))
      (k : ℕ) (text : String),
      k < max_retries → (∀ i, i < k → ∃ e, up i = Except.error e) →
      up k = Except.ok text →
      (retryLoop up fb).attempts = k + 1 ∧
      (retryLoop up fb).parsed = parse_gemini_response text ∧
      (retryLoop up fb).viaFallback = false) ∧
    (∀ (ct : String) (n : ℕ) (up : ℕ → Except String String) (pick : Fin 4)
      (eS dS : ℚ) (k : ℕ) (text : String) (pd : List (String × JVal)),
      listPref ("image/".toList) ct.toList = true → n ≤ limitBytes →
      k < max_retries → (∀ i, i < k → ∃ e, up i = Except.error e) →
      up k = Except.ok text → parse_gemini_response text = some pd →
      analyze_image ct n true up pick eS dS = (200, buildResponse pd)) := by
  refine ⟨?_, ?_, ?_⟩
  · intro up fb
    exact retryAux_attempts_le up fb max_retries 0 2
  · intro up fb k text hk herr hok
    exact retryLoop_success_at up fb k text hk herr hok
  · intro ct n up pick eS dS k text pd hct hn hk herr hok hpd
    rw [analyze_image_of_valid ct n up pick eS dS hct hn,
      (retryLoop_success_at up (generate_image_risk_assessment pick eS dS)
        k text hk herr hok).2.1, hpd]

/-- C5 witness: an upstream failing twice then succeeding makes exactly 3
attempts, stores the third reply's normalization, and skips the fallback. -/
theorem flood_c5_witness :
    (retryLoop upTwoFailThenOk []).attempts = 2 + 1 ∧
    (retryLoop upTwoFailThenOk []).parsed =
      parse_gemini_response ("\x7b\x7d") ∧
    (retryLoop upTwoFailThenOk []).viaFallback = false :=
  flood_c5_success_stops_retrying.2.1 upTwoFailThenOk [] 2 ("\x7b\x7d")
    (by decide)
    (fun i hi => ⟨"boom", by interval_cases i <;> rfl⟩)
    rfl

/-- C6: the backoff delay starts at 2 seconds; before each retry the loop
sleeps the current delay, first doubled if the just-failed attempt's error
was quota-classified and left unchanged otherwise; there is no sleep after
the final attempt; and a quota-classified first failure produces exactly
double the first sleep of a non-quota first failure. -/
theorem flood_c6_backoff_schedule :
    (∀ (up : ℕ → Except String String) (fb : List (String × JVal))
      (text : String), up 0 = Except.ok text →
      (retryLoop up fb).sleeps = []) ∧
    (∀ (up : ℕ → Except String String) (fb : List (String × JVal))
      (e0 text : String),
      up 0 = Except.error e0 → up 1 = Except.ok text →
      (retryLoop up fb).sleeps = [if isQuotaError e0 then 2 * 2 else 2]) ∧
    (∀ (up : ℕ → Except String String) (fb : List (String × JVal))
      (e0 e1 : String),
      up 0 = Except.error e0 → up 1 = Except.error e1 →
      (retryLoop up fb).sleeps =
        [if isQuotaError e0 then 2 * 2 else 2,
         if isQuotaError e1 then (if isQuotaError e0 then 2 * 2 else 2) * 2
         else if isQuotaError e0 then 2 * 2 else 2]) ∧
    (∀ (up up2 : ℕ → Except String String)
      (fb fb2 : List (String × JVal)) (e e2 : String),
      isQuotaError e = true → isQuotaError e2 = false →
      up 0 = Except.error e → up2 0 = Except.error e2 →
      (retryLoop up fb).sleeps.headI =
        2 * (retryLoop up2 fb2).sleeps.headI) := by
  refine ⟨?_, ?_, ?_, ?_⟩
  · intro up fb text h0
    rw [retryLoop_ok0 up fb text h0]
  · intro up fb e0 text h0 h1
    rw [retryLoop_e0_ok1 up fb e0 text h0 h1]
  · intro up fb e0 e1 h0 h1
    rcases h2 : up 2 with e2 | t2
    · rw [retryLoop_e012 up fb e0 e1 e2 h0 h1 h2]
    · rw [retryLoop_e01_ok2 up fb e0 e1 t2 h0 h1 h2]
  · intro up up2 fb fb2 e e2 hq hn h0 h02
    rw [retryLoop_first_sleep up fb e h0, retryLoop_first_sleep up2 fb2 e2 h02,
      hq, hn]
    norm_num

/-- C6 witness: with a quota-classified first failure and a plain second
failure the two sleeps are 4 seconds and then 4 seconds, with no sleep
after the final attempt. -/
theorem flood_c6_witness :
    (retryLoop upQuotaThenPlain []).sleeps = [4, 4] := by
  have h := flood_c6_backoff_schedule.2.2.1 upQuotaThenPlain []
    ("quota hit") ("boom") rfl rfl
  rw [h]
  decide

/-- C7: every Fallback Generator result has a risk label from the closed
4-label set; its description and its list of exactly 3 recommendations are
the fixed table entries keyed by that label; its elevation lies in
[10, 100] and its distance_from_water in [200, 2000], each on the tenths
grid (rounded to one decimal place). -/
theorem flood_c7_fallback_shape :
    ∀ (pick : Fin 4) (eS dS : ℚ),
      10 ≤ eS → eS ≤ 100 → 200 ≤ dS → dS ≤ 2000 →
      (∃ desc recs,
        (pickLabel pick, desc) ∈ descriptionsTable ∧
        (pickLabel pick, recs) ∈ recommendationsTable ∧
        recs.length = 3 ∧
        tableGet ("risk_level") (generate_image_risk_assessment pick eS dS) =
          some (JVal.str (pickLabel pick)) ∧
        pickLabel pick ∈ ["Low", "Medium", "High", "Very High"] ∧
        tableGet ("description") (generate_image_risk_assessment pick eS dS) =
          some (JVal.str desc) ∧
        tableGet ("recommendations")
          (generate_image_risk_assessment pick eS dS) =
          some (JVal.arr (recs.map JVal.str))) ∧
      (∃ q : ℚ,
        tableGet ("elevation") (generate_image_risk_assessment pick eS dS) =
          some (JVal.num q) ∧
        10 ≤ q ∧ q ≤ 100 ∧ ∃ z : ℤ, q * 10 = (z : ℚ)) ∧
      (∃ q : ℚ,
        tableGet ("distance_from_water")
          (generate_image_risk_assessment pick eS dS) =
          some (JVal.num q) ∧
        200 ≤ q ∧ q ≤ 2000 ∧ ∃ z : ℤ, q * 10 = (z : ℚ)) := by
  intro pick eS dS he1 he2 hd1 hd2
  refine ⟨?_, ?_, ?_⟩
  · refine ⟨(tableGet (pickLabel pick) descriptionsTable).getD (""),
      (tableGet (pickLabel pick) recommendationsTable).getD [],
      ?_, ?_, ?_, rfl, ?_, rfl, rfl⟩ <;>
      (fin_cases pick <;> decide)
  · refine ⟨round1 eS, rfl, ?_, ?_, round1_tenth eS⟩
    · have h := (@round1_bounds eS 10 100 (by exact_mod_cast he1)
        (by exact_mod_cast he2)).1
      exact_mod_cast h
    · have h := (@round1_bounds eS 10 100 (by exact_mod_cast he1)
        (by exact_mod_cast he2)).2
      exact_mod_cast h
  · refine ⟨round1 dS, rfl, ?_, ?_, round1_tenth dS⟩
    · have h := (@round1_bounds dS 200 2000 (by exact_mod_cast hd1)
        (by exact_mod_cast hd2)).1
      exact_mod_cast h
    · have h := (@round1_bounds dS 200 2000 (by exact_mod_cast hd1)
        (by exact_mod_cast hd2)).2
      exact_mod_cast h

/-- C7 witness: the Fallback Generator at label index 0 and samples 10 and
200 satisfies the full shape property. -/
theorem flood_c7_witness :
    (∃ desc recs,
      (pickLabel 0, desc) ∈ descriptionsTable ∧
      (pickLabel 0, recs) ∈ recommendationsTable ∧
      recs.length = 3 ∧
      tableGet ("risk_level") (generate_image_risk_assessment 0 10 200) =
        some (JVal.str (pickLabel 0)) ∧
      pickLabel 0 ∈ ["Low", "Medium", "High", "Very High"] ∧
      tableGet ("description") (generate_image_risk_assessment 0 10 200) =
        some (JVal.str desc) ∧
      tableGet ("recommendations") (generate_image_risk_assessment 0 10 200) =
        some (JVal.arr (recs.map JVal.str))) ∧
    (∃ q : ℚ,
      tableGet ("elevation") (generate_image_risk_assessment 0 10 200) =
        some (JVal.num q) ∧
      10 ≤ q ∧ q ≤ 100 ∧ ∃ z : ℤ, q * 10 = (z : ℚ)) ∧
    (∃ q : ℚ,
      tableGet ("distance_from_water")
        (generate_image_risk_assessment 0 10 200) =
        some (JVal.num q) ∧
      200 ≤ q ∧ q ≤ 2000 ∧ ∃ z : ℤ, q * 10 = (z : ℚ)) :=
  flood_c7_fallback_shape 0 10 200 (by norm_num) (by norm_num) (by norm_num)
    (by norm_num)

/-- C8 counterexample: a request that completes the pipeline gets a 200
response whose body also carries the field image_analysis, which is
outside the eight fields the claim says the body consists of. -/
theorem flood_c8_counterexample :
    (analyze_image ("image/png") 0 true upEmptyObj 0 10 200).1 = 200 ∧
    "image_analysis" ∈
      dictKeys (analyze_image ("image/png") 0 true upEmptyObj 0 10 200).2 ∧
    "image_analysis" ∉
      ["success", "risk_level", "description", "recommendations",
       "elevation", "distance_from_water", "message", "ai_analysis"] := by
  refine ⟨rfl, by decide, by decide⟩

/-- C8 amended: every request that completes the analysis pipeline (via the
Normalizer or the fallback path) gets status 200 and a body consisting of
success (true), the six schema fields including image_analysis, ai_analysis
mirroring the image_analysis value, and message. -/
theorem flood_c8_completed_response_fields :
    ∀ (ct : String) (n : ℕ) (up : ℕ → Except String String) (pick : Fin 4)
      (eS dS : ℚ) (pd : List (String × JVal)),
      listPref ("image/".toList) ct.toList = true → n ≤ limitBytes →
      (retryLoop up (generate_image_risk_assessment pick eS dS)).parsed =
        some pd →
      analyze_image ct n true up pick eS dS = (200, buildResponse pd) ∧
      dictKeys pd = sixKeys ∧
      dictKeys (buildResponse pd) =
        ["success", "risk_level", "description", "recommendations",
         "elevation", "distance_from_water", "image_analysis", "ai_analysis",
         "message"] ∧
      tableGet ("success") (buildResponse pd) = some (JVal.bool true) ∧
      (∀ v, tableGet ("image_analysis") pd = some v →
        tableGet ("ai_analysis") (buildResponse pd) = some v) := by
  intro ct n up pick eS dS pd hct hn hpd
  have hkeys : dictKeys pd = sixKeys := by
    rcases retryAux_parsed_cases up _ max_retries 0 2 pd hpd with ⟨text, ht⟩ | hfb
    · exact parse_keys ht
    · rw [hfb]
      exact fallback_overwrite_keys pick eS dS
  refine ⟨?_, hkeys, ?_, rfl, ?_⟩
  · rw [analyze_image_of_valid ct n up pick eS dS hct hn, hpd]
  · simp only [buildResponse, dictKeys, List.map_cons, List.map_append]
    rw [show pd.map Prod.fst = sixKeys from hkeys]
    rfl
  · intro v hv
    have hnd : (dictKeys pd).Nodup := by
      rw [hkeys]
      decide
    have hmem : ("image_analysis", v) ∈ pd := tableGet_some_mem hv
    have step1 : tableGet ("ai_analysis") (buildResponse pd) =
        tableGet ("ai_analysis")
          (pd ++ [("ai_analysis", dGet pd ("image_analysis") (JVal.str (""))),
            ("message",
             JVal.str ("Image analyzed successfully using Gemini AI."))]) := by
      simp [buildResponse, tableGet]
    have step2 : tableGet ("ai_analysis")
        (pd ++ [("ai_analysis", dGet pd ("image_analysis") (JVal.str (""))),
          ("message",
           JVal.str ("Image analyzed successfully using Gemini AI."))]) =
        some (dGet pd ("image_analysis") (JVal.str (""))) := by
      rw [tableGet_append (by rw [hkeys]; decide)]
      rfl
    rw [step1, step2, dGet_eq_of_mem hnd hmem (JVal.str (""))]

/-- C8 amended witness: a concrete completed request returns 200 with the
nine-field body and ai_analysis mirroring image_analysis. -/
theorem flood_c8_amended_witness :
    analyze_image ("image/png") 0 true upEmptyObj 0 10 200 =
      (200, buildResponse (sixFieldDict [])) ∧
    dictKeys (buildResponse (sixFieldDict [])) =
      ["success", "risk_level", "description", "recommendations",
       "elevation", "distance_from_water", "image_analysis", "ai_analysis",
       "message"] := by
  have h := flood_c8_completed_response_fields ("image/png") 0 upEmptyObj
    0 10 200 (sixFieldDict []) rfl (by decide) rfl
  exact ⟨h.1, h.2.2.1⟩
